import Mathlib

/-!
Verification of the sh-cmd-tag command construction and escaping engine.

The definitions below are a shallow embedding of `index.js`: JavaScript
strings become `String`, interpolated values become the inductive `JSValue`,
fallible functions return `Except String _` (an exception is `.error`), and
the asynchronous settle logic of the process executors becomes an explicit
outcome type.  Definitions named after source functions (`templateEscape`,
`shellEscape`, `getInterpolationContext`, `parseCommand`, ...) are translated
from the source; definitions whose name starts with `spec` are written from
the specification's words, for comparison.
-/

namespace ShCmdTag

/-- The ECMAScript whitespace class used by `\s`, `String.prototype.trim` and
the regexes of the source (space, tab, line terminators, and the Unicode
space separators). -/
def isJSWhitespace (c : Char) : Bool :=
  c = ' ' || c = '\t' || c = '\n' || c = '\r' || c = '\x0b' || c = '\x0c' ||
  c = '\u00A0' || c = '\u1680' || c = '\u2000' || c = '\u2001' ||
  c = '\u2002' || c = '\u2003' || c = '\u2004' || c = '\u2005' ||
  c = '\u2006' || c = '\u2007' || c = '\u2008' || c = '\u2009' ||
  c = '\u200A' || c = '\u2028' || c = '\u2029' || c = '\u202F' ||
  c = '\u205F' || c = '\u3000' || c = '\uFEFF'

/-- JavaScript `String.prototype.trim`: drop leading and trailing
whitespace. -/
def jsTrim (s : String) : String :=
  String.mk (((s.data.dropWhile isJSWhitespace).reverse.dropWhile
    isJSWhitespace).reverse)

/-- Source `str.replaceAll("'", "'\\''")` from the source: every single quote is
replaced by close-quote, backslash-escaped quote, reopen-quote. -/
def replaceSingleQuotes (s : String) : String :=
  String.join (s.data.map fun c =>
    if c = '\'' then "'\\''" else String.singleton c)

/-- The three quoting contexts of an interpolation site. -/
inductive InterpolationContext where
  | unquoted
  | singleQuoted
  | doubleQuoted
deriving DecidableEq, Repr

/-- Character class of the regex `[\s$`"'\\;|&]` in `templateEscape`. -/
def templateUnquotedMeta (c : Char) : Bool :=
  isJSWhitespace c || c = '$' || c = '`' || c = '"' || c = '\'' ||
  c = '\\' || c = ';' || c = '|' || c = '&'

/-- Character class of the regex `[\s$`"';|&\\]` in `shellEscape`. -/
def shellEscapeMeta (c : Char) : Bool :=
  isJSWhitespace c || c = '$' || c = '`' || c = '"' || c = '\'' ||
  c = ';' || c = '|' || c = '&' || c = '\\'

/-- Character class of the regex `[$`"\\]` used inside double quotes. -/
def doubleQuotedSpecial (c : Char) : Bool :=
  c = '$' || c = '`' || c = '"' || c = '\\'

/-- Source `templateEscape(str, context)` from the source: context-aware escaping of
one stringified interpolated value. -/
def templateEscape (str : String) (context : InterpolationContext) : String :=
  if str = "" then "''"
  else
    match context with
    | .doubleQuoted =>
        String.join (str.data.map fun c =>
          if doubleQuotedSpecial c then "\\" ++ String.singleton c
          else String.singleton c)
    | .singleQuoted => replaceSingleQuotes str
    | .unquoted =>
        if str.data.any templateUnquotedMeta then
          "'" ++ replaceSingleQuotes str ++ "'"
        else str

/-- JavaScript values as they occur in template interpolation.  `vStr` is a
primitive string; `vSafe` is a `String` wrapper object produced by
`markSafeString` (the only `String` objects the library creates). -/
inductive JSValue where
  | vStr (s : String)
  | vSafe (s : String)
  | vNum (n : Int)
  | vBool (b : Bool)
  | vNull
  | vUndefined
  | vObj (entries : List (String × JSValue))
  | vArr (items : List JSValue)

mutual

/-- JavaScript `String(value)` coercion for the values of the model. -/
def jsToString : JSValue → String
  | .vStr s => s
  | .vSafe s => s
  | .vNum n => toString n
  | .vBool b => cond b "true" "false"
  | .vNull => "null"
  | .vUndefined => "undefined"
  | .vObj _ => "[object Object]"
  | .vArr items => String.intercalate "," (jsToStringList items)

/-- Elementwise stringification of an array, where `null` and `undefined`
render as the empty string (JavaScript `Array.prototype.toString`). -/
def jsToStringList : List JSValue → List String
  | [] => []
  | .vNull :: rest => "" :: jsToStringList rest
  | .vUndefined :: rest => "" :: jsToStringList rest
  | v :: rest => jsToString v :: jsToStringList rest

end

/-- JavaScript `typeof`.  A `String` wrapper object has `typeof` `"object"`,
not `"string"`. -/
def jsTypeof : JSValue → String
  | .vStr _ => "string"
  | .vSafe _ => "object"
  | .vNum _ => "number"
  | .vBool _ => "boolean"
  | .vNull => "object"
  | .vUndefined => "undefined"
  | .vObj _ => "object"
  | .vArr _ => "object"

/-- JavaScript truthiness.  Every object (including a `String` wrapper of the
empty string) is truthy. -/
def jsTruthy : JSValue → Bool
  | .vStr s => s != ""
  | .vSafe _ => true
  | .vNum n => n != 0
  | .vBool b => b
  | .vNull => false
  | .vUndefined => false
  | .vObj _ => true
  | .vArr _ => true

/-- Source `Array.isArray`. -/
def isArray : JSValue → Bool
  | .vArr _ => true
  | _ => false

/-- Source `value instanceof String`: in this model the only `String` wrapper
objects are the safe-marked ones. -/
def isStringInstance : JSValue → Bool
  | .vSafe _ => true
  | _ => false

/-- Source `isSafeString` from the source: a primitive string can never carry the
`SHELL_SAFE` symbol property, so only wrapper objects made by
`markSafeString` qualify. -/
def isSafeString : JSValue → Bool
  | .vSafe _ => true
  | _ => false

/-- Source `markSafeString` from the source: throws unless the argument is a
primitive string, otherwise returns a marked `String` wrapper object. -/
def markSafeString (v : JSValue) : Except String JSValue :=
  if jsTypeof v == "string" then .ok (.vSafe (jsToString v))
  else .error "Only strings can be marked as shell-safe"

/-- Source `shellEscape(value)` from the source. -/
def shellEscape (value : JSValue) : String :=
  if (jsTypeof value == "string" || isStringInstance value) &&
      isSafeString value then
    jsToString value
  else
    let str := jsToString value
    if str = "" then "''"
    else if str.data.any shellEscapeMeta then
      "'" ++ replaceSingleQuotes str ++ "'"
    else str

/-- Helper for the `oneLine` tag: collapse every run of whitespace to a
single space (`.replace(/\s+/g, " ")`).  The flag tracks whether the
previous character was part of a whitespace run. -/
def collapseWhitespaceAux : Bool → List Char → List Char
  | _, [] => []
  | prevSpace, c :: rest =>
    if isJSWhitespace c then
      if prevSpace then collapseWhitespaceAux true rest
      else ' ' :: collapseWhitespaceAux true rest
    else c :: collapseWhitespaceAux false rest

/-- The `oneLine` template tag from the source applied to an assembled
string: collapse whitespace runs, then trim. -/
def oneLine (s : String) : String :=
  jsTrim (String.mk (collapseWhitespaceAux false s.data))

/-- The error message thrown by `formatFlagName`, assembled from the
source's `oneLine` template literal (`key || ""` equals `key` since the
empty string is its own fallback). -/
def flagNameErrorMessage (key : String) : String :=
  oneLine ("\n      Invalid flag name: \"" ++ key ++
    "\". Flag names must contain only letters,\n      numbers, underscores, and hyphens.\n    ")

/-- First character of the regex group `[a-zA-Z_]` in `formatFlagName`. -/
def flagNameStartChar (c : Char) : Bool :=
  c.isUpper || c.isLower || c = '_'

/-- Continuation characters of the regex group `[\w-]` in
`formatFlagName`. -/
def flagNameChar (c : Char) : Bool :=
  c.isUpper || c.isLower || c.isDigit || c = '_' || c = '-'

/-- Source `formatFlagName(key)` from the source.  The anchored regex
`^(?<dashes>-+)?(?<name>[a-zA-Z_][\w-]*)$` forces the `dashes` group to be
exactly the leading run of dashes (the `name` group cannot start with a
dash), so it is embedded as take/drop of that run; a missing `dashes` group
defaults to `--`. -/
def formatFlagName (key : String) : Except String String :=
  match key.data.dropWhile (· == '-') with
  | [] => .error (flagNameErrorMessage key)
  | c :: cs =>
    if flagNameStartChar c && cs.all flagNameChar then
      .ok ((if (key.data.takeWhile (· == '-')).isEmpty then "--"
            else String.mk (key.data.takeWhile (· == '-'))) ++
        String.mk (c :: cs))
    else .error (flagNameErrorMessage key)

/-- Character class of the regex `[ "'$`\\\/]` in `formatShellSafeValue`. -/
def shellSafeValueSpecial (c : Char) : Bool :=
  c = ' ' || c = '"' || c = '\'' || c = '$' || c = '`' || c = '\\' || c = '/'

/-- Source `formatShellSafeValue(value)` from the source. -/
def formatShellSafeValue (value : JSValue) : String :=
  let valueStr := jsToString value
  let needsQuotes :=
    jsTypeof value == "string" && valueStr.data.any shellSafeValueSpecial
  if needsQuotes then shellEscape (.vStr valueStr) else valueStr

/-- Source `shouldIncludeFlag` from the source: drop `false`, `null`, and
`undefined` values. -/
def shouldIncludeFlag : JSValue → Bool
  | .vBool false => false
  | .vNull => false
  | .vUndefined => false
  | _ => true

/-- Source `formatShellSafeFlag({name, value})` from the source. -/
def formatShellSafeFlag (name : String) (value : JSValue) :
    Except String String := do
  let n ← formatFlagName name
  match value with
  | .vBool true => pure n
  | v => pure (n ++ "=" ++ formatShellSafeValue v)

/-- Source `Object.entries` for the values that can reach the object branch of
`valueToShellString`: a plain object yields its entries, a `String` wrapper
object yields its index-to-character pairs. -/
def objectEntries : JSValue → List (String × JSValue)
  | .vObj entries => entries
  | .vSafe s => s.data.enum.map fun p =>
      (toString p.1, JSValue.vStr (String.singleton p.2))
  | _ => []

/-- Sequential map over a list with a throwing callback: the first
exception aborts (the semantics of `Array.prototype.map` with a callback
that can throw). -/
def mapExcept {α β : Type} (f : α → Except String β) :
    List α → Except String (List β)
  | [] => .ok []
  | a :: rest => do
    let b ← f a
    let bs ← mapExcept f rest
    pure (b :: bs)

/-- Whether an `Except` computation finished without throwing. -/
def exceptIsOk {α β : Type} : Except α β → Bool
  | .ok _ => true
  | .error _ => false

/-- Source `objectToShellSafeFlags(obj)` from the source:
`toFlagDescriptors(obj).filter(shouldIncludeFlag).map(formatShellSafeFlag).join(" ")`.
The first invalid flag name aborts the conversion with the thrown error. -/
def objectToShellSafeFlags (entries : List (String × JSValue)) :
    Except String String := do
  let kept := entries.filter fun kv => shouldIncludeFlag kv.2
  let toks ← mapExcept (fun kv => formatShellSafeFlag kv.1 kv.2) kept
  pure (String.intercalate " " toks)

/-- Source `hasValue(item)` from the source. -/
def hasValue : JSValue → Bool
  | .vNull => false
  | .vUndefined => false
  | _ => true

/-- Source `arrayToShellArgs(arr)` from the source: filter, stringify each element
to a primitive string, escape, join with single spaces. -/
def arrayToShellArgs (arr : List JSValue) : String :=
  String.intercalate " "
    ((arr.filter hasValue).map fun item => shellEscape (.vStr (jsToString item)))

/-- Source `getInterpolationContext(beforeValue, afterValue)` from the source: trim
both fragments, count every double/single quote character, and classify by
odd counts on both sides, double quotes first. -/
def getInterpolationContext (beforeValue afterValue : String) :
    InterpolationContext :=
  if (jsTrim beforeValue).data.count '"' % 2 = 1 ∧
      (jsTrim afterValue).data.count '"' % 2 = 1 then
    .doubleQuoted
  else if (jsTrim beforeValue).data.count '\'' % 2 = 1 ∧
      (jsTrim afterValue).data.count '\'' % 2 = 1 then
    .singleQuoted
  else
    .unquoted

/-- Source `valueToShellString(value, context)` from the source.  Note the branch
order: any truthy non-array `typeof === "object"` value — which includes a
`SafeString` wrapper object — is routed to `objectToShellSafeFlags` before
the `isSafeString` test is ever reached. -/
def valueToShellString (value : JSValue) (context : InterpolationContext) :
    Except String String :=
  if jsTruthy value && jsTypeof value == "object" && !isArray value then
    objectToShellSafeFlags (objectEntries value)
  else if isArray value then
    .ok (arrayToShellArgs (match value with | .vArr l => l | _ => []))
  else if isSafeString value then
    .ok (jsToString value)
  else
    .ok (templateEscape (jsToString value) context)

/-- Source `buildShellExpression(strings, values)` from the source: walk fragments
and values in lockstep; the context of value `i` is computed from fragment
`i` and fragment `i+1` (or `""` past the end). -/
def buildShellExpression : List String → List JSValue →
    Except String String
  | [], _ => .ok ""
  | s :: rest, [] => do
      let r ← buildShellExpression rest []
      pure (s ++ r)
  | s :: rest, v :: vs => do
      let afterValue := match rest with | [] => "" | a :: _ => a
      let context := getInterpolationContext s afterValue
      let safeValue ← valueToShellString v context
      let r ← buildShellExpression rest vs
      pure (s ++ safeValue ++ r)

/-- State of the character loop in `parseCommand`. -/
structure ParseState where
  parts : List String
  current : String
  inQuotes : Bool
  quoteChar : Option Char

/-- One iteration of the `parseCommand` loop. -/
def parseStep (st : ParseState) (c : Char) : ParseState :=
  if !st.inQuotes && (c == '"' || c == '\'') then
    { st with inQuotes := true, quoteChar := some c }
  else if st.inQuotes && some c == st.quoteChar then
    { st with inQuotes := false, quoteChar := none }
  else if !st.inQuotes && isJSWhitespace c then
    if st.current ≠ "" then
      { st with parts := st.parts ++ [st.current], current := "" }
    else st
  else
    { st with current := st.current.push c }

/-- Source `parseCommand(command)` from the source: the quote-aware whitespace
tokenizer of direct mode. -/
def parseCommand (command : String) : List String :=
  let final := command.data.foldl parseStep
    { parts := [], current := "", inQuotes := false, quoteChar := none }
  if final.current ≠ "" then final.parts ++ [final.current] else final.parts

/-- The `code` field of a `ProcessError`: a numeric exit code, a platform
error code string (such as `"ENOENT"` or `"EMPTY_COMMAND"`), or absent. -/
inductive ErrCode where
  | exitCode (n : Int)
  | strCode (s : String)
  | undef
deriving DecidableEq, Repr

/-- Source `ProcessError` from the source (the `name` field is always
`"ProcessError"` and is omitted). -/
structure ProcessError where
  message : String
  code : ErrCode
  output : String
  debug : String
deriving DecidableEq, Repr

/-- Source `ProcessResult` from the source.  Its constructor destructures one
object argument; each field is `none` when the corresponding property was
`undefined`. -/
structure ProcessResult where
  ok : Option Bool
  error : Option ProcessError
  output : Option String
  debug : Option String
deriving DecidableEq, Repr

/-- The line `resolve(new ProcessResult(false, processError, output, debug))`
in the `error` handler of `executeAsyncCommand` passes positional arguments
to a constructor that destructures its first argument; destructuring the
primitive `false` yields `undefined` for `ok`, `error`, `output`, and
`debug`, and the remaining arguments are ignored. -/
def processResultOfPositional (_ok : Bool) (_error : ProcessError)
    (_output _debug : String) : ProcessResult :=
  { ok := none, error := none, output := none, debug := none }

/-- How a deferred execution settles: `reject` models a rejected promise or
a synchronous `throw`, `resolve` a fulfilled one. -/
inductive Settle where
  | resolve (result : ProcessResult)
  | reject (error : ProcessError)
deriving DecidableEq, Repr

/-- The spawn outcome reported by `spawnSync`: either `result.error` is set
(launch failure, with any captured stdout/stderr), or the process exited
with a status. -/
inductive SyncSpawnOutcome where
  | spawnErr (message : String) (code : ErrCode) (output debug : String)
  | exited (status : Int) (output debug : String)
deriving DecidableEq, Repr

/-- The failure message built by both executors for a nonzero exit:
`"Command failed with exit code N"`, with trimmed stderr appended when
present. -/
def failMessage (code : Int) (debug : String) : String :=
  if debug != "" && jsTrim debug != "" then
    "Command failed with exit code " ++ toString code ++ ": " ++ jsTrim debug
  else
    "Command failed with exit code " ++ toString code

/-- Source `executeSyncCommand` from the source, modelled on the spawn outcome:
launch failures and nonzero exits throw unless `options.throw === false`, in
which case a failure-shaped `ProcessResult` is returned. -/
def executeSyncCommand (res : SyncSpawnOutcome) (throwOpt : Option Bool) :
    Settle :=
  match res with
  | .spawnErr message code output debug =>
    let error : ProcessError :=
      { message := message, code := code, output := output, debug := debug }
    if throwOpt ≠ some false then .reject error
    else .resolve { ok := some false, error := some error,
                    output := some output, debug := some debug }
  | .exited status output debug =>
    if status ≠ 0 then
      let error : ProcessError :=
        { message := failMessage status debug, code := .exitCode status,
          output := output, debug := debug }
      if throwOpt ≠ some false then .reject error
      else .resolve { ok := some false, error := some error,
                      output := some output, debug := some debug }
    else
      .resolve { ok := some true, error := none,
                 output := some output, debug := some debug }

/-- The terminal event of the child process in `executeAsyncCommand`: an
`error` event (launch failure) or a `close` event with an exit code. -/
inductive AsyncEvent where
  | errorEvent (message : String) (code : ErrCode)
  | closeEvent (code : Int)
deriving DecidableEq, Repr

/-- The settle logic of `executeAsyncCommand` from the source, given the
terminal event and the captured stdout/stderr text.  In the
`errorEvent` no-throw branch the source constructs the result with
positional arguments (`new ProcessResult(false, processError, output,
debug)`). -/
def asyncSettle (ev : AsyncEvent) (output debug : String)
    (throwOpt : Option Bool) : Settle :=
  match ev with
  | .errorEvent message code =>
    let processError : ProcessError :=
      { message := message, code := code, output := output, debug := debug }
    if throwOpt ≠ some false then .reject processError
    else .resolve (processResultOfPositional false processError output debug)
  | .closeEvent code =>
    if code = 0 then
      .resolve { ok := some true, error := none,
                 output := some output, debug := some debug }
    else
      let error : ProcessError :=
        { message := failMessage code debug, code := .exitCode code,
          output := output, debug := debug }
      if throwOpt ≠ some false then .reject error
      else .resolve { ok := some false, error := some error,
                      output := some output, debug := some debug }

/-- The dedicated error for an empty command in `runCommand`. -/
def emptyCommandError : ProcessError :=
  { message := "Command cannot be empty", code := .strCode "EMPTY_COMMAND",
    output := "", debug := "" }

/-- Outcome of the pre-spawn section of `runCommand`: the empty-command
error is thrown or returned as a failure result; otherwise execution
proceeds to spawning with the trimmed command. -/
inductive RunOutcome where
  | thrown (error : ProcessError)
  | result (r : ProcessResult)
  | proceed (command : String)
deriving DecidableEq, Repr

/-- The empty-command gate at the top of `runCommand` from the source:
trim, then reject an empty command — with a throw unless
`options.throw === false`, in which case a failure-shaped result is
returned. -/
def runCommandGate (command : String) (throwOpt : Option Bool) :
    RunOutcome :=
  let command := jsTrim command
  if command = "" then
    if throwOpt ≠ some false then .thrown emptyCommandError
    else .result { ok := some false, error := some emptyCommandError,
                   output := some "", debug := some "" }
  else .proceed command

/-- Caller-supplied `Process` configuration (absent fields fall back to the
class defaults). -/
structure ProcessConfigArg where
  immediate : Option Bool := none
  shell : Option Bool := none
deriving DecidableEq, Repr

/-- Merged `Process` configuration after `{ ...defaults, ...config }` with
defaults `{ immediate: true, shell: true }`. -/
structure ProcessConfig where
  immediate : Bool
  shell : Bool
deriving DecidableEq, Repr

/-- Source `{ ...Process.#defaults, ...config }` from the source. -/
def mergeProcessConfig (c : ProcessConfigArg) : ProcessConfig :=
  { immediate := c.immediate.getD true, shell := c.shell.getD true }

/-- The stream objects allocated by `Process.start`: fresh dummy
`Readable`/`Writable` instances. -/
inductive StreamHandle where
  | readableStub
  | writableStub
deriving DecidableEq, Repr

/-- The `#childProcess` record assigned by `Process.start`. -/
structure ChildStreams where
  stdout : StreamHandle
  stderr : StreamHandle
  stdin : StreamHandle
deriving DecidableEq, Repr

/-- The `Process` class state from the source: command string, frozen
config, and the `#childProcess` field, which is `undefined` (`none`) until
`start()` assigns it. -/
structure Process where
  commandString : String
  config : ProcessConfig
  childProcess : Option ChildStreams
deriving DecidableEq, Repr

/-- Source `get started()`: `Boolean(this.#childProcess)`. -/
def Process.started (p : Process) : Bool :=
  p.childProcess.isSome

/-- Source `get output()`: `this.#childProcess?.stdout || null` (`none` is
`null`). -/
def Process.output (p : Process) : Option StreamHandle :=
  p.childProcess.map ChildStreams.stdout

/-- Source `get debug()`: `this.#childProcess?.stderr || null`. -/
def Process.debug (p : Process) : Option StreamHandle :=
  p.childProcess.map ChildStreams.stderr

/-- Source `get input()`: `this.#childProcess?.stdin || null`. -/
def Process.input (p : Process) : Option StreamHandle :=
  p.childProcess.map ChildStreams.stdin

/-- The body of `start()` past its already-started guard: assign fresh dummy
streams to `#childProcess` (no OS process is spawned). -/
def Process.assignStreams (p : Process) : Process :=
  let streams : ChildStreams :=
    { stdout := .readableStub, stderr := .readableStub,
      stdin := .writableStub }
  { p with childProcess := some streams }

/-- Source `start()` from the source: throws if the process has already been
started, otherwise assigns the dummy streams. -/
def Process.start (p : Process) : Except String Process :=
  if p.started then
    .error ("Process \"" ++ p.commandString ++ "\" has already been started")
  else .ok p.assignStreams

/-- Source `new Process(commandString, config)` from the source: store the command,
merge and freeze the config, and call `start()` when `config.immediate` is
true (the guard cannot fire during construction). -/
def Process.construct (commandString : String) (config : ProcessConfigArg) :
    Process :=
  let p : Process :=
    { commandString := commandString, config := mergeProcessConfig config,
      childProcess := none }
  if (mergeProcessConfig config).immediate then p.assignStreams else p

/-! Spec-side definitions, written from the specification's words rather
than from the source, for comparison with the embedded code. -/

/-- The spec's metacharacter list for the unquoted context: whitespace or
any of space, `$`, backtick, double quote, single quote, semicolon, pipe,
ampersand, backslash. -/
def specUnquotedMetachar (c : Char) : Bool :=
  isJSWhitespace c || c = ' ' || c = '$' || c = '`' || c = '"' ||
  c = '\'' || c = ';' || c = '|' || c = '&' || c = '\\'

/-- The spec's embedded-single-quote treatment: replace every single quote
with the close-quote, backslash-escaped-quote, reopen-quote sequence. -/
def specSingleQuoteReplace (s : String) : String :=
  String.join (s.data.map fun c =>
    if c = '\'' then "'" ++ "\\'" ++ "'" else String.singleton c)

/-- The spec's unquoted escaping rule: empty text becomes `''`; text with a
metacharacter is wrapped in single quotes with embedded quotes replaced;
anything else passes through unmodified. -/
def specUnquotedEscape (s : String) : String :=
  if s = "" then "''"
  else if s.data.any specUnquotedMetachar then
    "'" ++ specSingleQuoteReplace s ++ "'"
  else s

/-- Counting unescaped occurrences of a quote character, as the spec's
words for context detection demand: a character preceded by a backslash is
escaped and does not count. -/
def specCountUnescaped (q : Char) : List Char → Nat
  | [] => 0
  | '\\' :: _ :: rest => specCountUnescaped q rest
  | c :: rest => (if c = q then 1 else 0) + specCountUnescaped q rest

/-- The amended context rule: classify from raw quote-character counts
(escaped occurrences included), the double-quote test taking priority over
the single-quote test. -/
def specRawQuoteContext (before afterV : String) : InterpolationContext :=
  if before.data.count '"' % 2 = 1 ∧ afterV.data.count '"' % 2 = 1 then
    .doubleQuoted
  else if before.data.count '\'' % 2 = 1 ∧ afterV.data.count '\'' % 2 = 1 then
    .singleQuoted
  else .unquoted

/-- The spec's validity test for a flag key's remainder after stripping
leading dashes: nonempty, first character a letter or underscore, the rest
letters, digits, underscores, or hyphens. -/
def specValidRemainder : List Char → Bool
  | [] => false
  | c :: cs => flagNameStartChar c && cs.all flagNameChar

/-! Helper lemmas shared by the claim theorems. -/

theorem templateUnquotedMeta_eq_spec (c : Char) :
    templateUnquotedMeta c = specUnquotedMetachar c := by
  by_cases h1 : c = '\\'
  · subst h1; decide
  · by_cases h2 : c = ' '
    · subst h2; decide
    · simp [templateUnquotedMeta, specUnquotedMetachar, isJSWhitespace, h1, h2]

theorem shellEscapeMeta_eq_spec (c : Char) :
    shellEscapeMeta c = specUnquotedMetachar c := by
  by_cases h1 : c = '\\'
  · subst h1; decide
  · by_cases h2 : c = ' '
    · subst h2; decide
    · simp [shellEscapeMeta, specUnquotedMetachar, isJSWhitespace, h1, h2]

theorem replaceSingleQuotes_eq_spec (s : String) :
    replaceSingleQuotes s = specSingleQuoteReplace s := by
  unfold replaceSingleQuotes specSingleQuoteReplace
  have h : (fun c => if c = '\'' then "'\\''" else String.singleton c) =
      (fun c => if c = '\'' then "'" ++ "\\'" ++ "'" else String.singleton c) := by
    funext c
    by_cases hc : c = '\''
    · subst hc; decide
    · simp [hc]
  rw [h]

/-- Claim C1: in the unquoted context both escapers implement exactly the
spec's three-case rule --- empty text becomes `''`; text containing
whitespace or one of the metacharacters space, `$`, backtick, double quote,
single quote, semicolon, pipe, ampersand, backslash is wrapped in single
quotes with every embedded single quote replaced by the
close/escape/reopen sequence; all other text passes through unmodified. -/
theorem unquoted_escape_matches_spec (s : String) :
    templateEscape s .unquoted = specUnquotedEscape s ∧
    shellEscape (.vStr s) = specUnquotedEscape s := by
  have hany : s.data.any templateUnquotedMeta = s.data.any specUnquotedMetachar := by
    rw [show templateUnquotedMeta = specUnquotedMetachar from
      funext templateUnquotedMeta_eq_spec]
  have hany2 : s.data.any shellEscapeMeta = s.data.any specUnquotedMetachar := by
    rw [show shellEscapeMeta = specUnquotedMetachar from
      funext shellEscapeMeta_eq_spec]
  constructor
  · show (if s = "" then "''"
      else if s.data.any templateUnquotedMeta then
        "'" ++ replaceSingleQuotes s ++ "'"
      else s) = specUnquotedEscape s
    unfold specUnquotedEscape
    rw [hany, replaceSingleQuotes_eq_spec]
  · show (if s = "" then "''"
      else if s.data.any shellEscapeMeta then
        "'" ++ replaceSingleQuotes s ++ "'"
      else s) = specUnquotedEscape s
    unfold specUnquotedEscape
    rw [hany2, replaceSingleQuotes_eq_spec]

theorem count_dropWhile_of_not (p : Char → Bool) (q : Char)
    (hq : p q = false) (l : List Char) :
    (l.dropWhile p).count q = l.count q := by
  induction l with
  | nil => rfl
  | cons c rest ih =>
    rw [List.dropWhile_cons]
    by_cases h : p c = true
    · have hcq : (c == q) = false := by
        apply beq_eq_false_iff_ne.mpr
        intro he
        rw [he, hq] at h
        exact Bool.false_ne_true h
      simp [h, ih, List.count_cons, hcq]
    · simp [h]

theorem count_jsTrim (q : Char) (hq : isJSWhitespace q = false)
    (s : String) : (jsTrim s).data.count q = s.data.count q := by
  unfold jsTrim
  simp [List.count_reverse, count_dropWhile_of_not _ _ hq]

/-- Claim C2 counterexample: with the literal text `\"` on both sides of
the hole (one escaped double quote, zero unescaped ones), the code
classifies the site as double-quoted although the number of unescaped
double quotes on each side is even. -/
theorem interpolationContext_counts_escaped_quotes :
    getInterpolationContext "\\\"" "\\\"" =
      InterpolationContext.doubleQuoted ∧
    specCountUnescaped '"' "\\\"".data % 2 = 0 := by
  constructor
  · rfl
  · rfl

/-- Claim C2 amended: the context is determined from counts of all quote
characters (escaped occurrences included) in the trimmed fragments around
the site --- double-quoted exactly when the raw double-quote counts are odd
on both sides, otherwise single-quoted exactly when the raw single-quote
counts are odd on both sides, otherwise unquoted. -/
theorem interpolationContext_raw_quote_parity (before afterV : String) :
    getInterpolationContext before afterV =
      specRawQuoteContext before afterV := by
  unfold getInterpolationContext specRawQuoteContext
  rw [count_jsTrim '"' (by decide) before, count_jsTrim '"' (by decide) afterV,
    count_jsTrim '\'' (by decide) before, count_jsTrim '\'' (by decide) afterV]

/-- Claim C3 (code bug): `shellEscape` does pass a safe-marked string
through unchanged, but the shell-mode builder does not --- a `SafeString` is
a `String` wrapper object, so `valueToShellString` routes it into
`objectToShellSafeFlags` (its index-to-character entries), which throws
`Invalid flag name: "0"` for every nonempty text in every context instead
of inserting the text unchanged. -/
theorem safe_string_interpolation_breaks :
    (∀ s, shellEscape (.vSafe s) = s) ∧
    ∀ context, valueToShellString (.vSafe "ls -la") context =
      .error (flagNameErrorMessage "0") := by
  constructor
  · intro s
    rfl
  · intro context
    rfl

/-- Claim C5 counterexample: the composite token string returned by the
mapping-to-flags conversion (and by the sequence-to-args conversion) is a
plain primitive string, for which `isSafeString` is false --- the converters
never mark their result safe. -/
theorem converter_output_not_marked_safe :
    objectToShellSafeFlags [("watch", .vBool true)] = .ok "--watch" ∧
    isSafeString (.vStr "--watch") = false ∧
    arrayToShellArgs [.vStr "a.txt"] = "a.txt" ∧
    isSafeString (.vStr "a.txt") = false := by
  refine ⟨rfl, rfl, rfl, rfl⟩

/-- Claim C5 amended: the two conversions return plain (unmarked) primitive
strings --- `isSafeString` holds of no primitive string --- yet the composite
is still never re-escaped downstream, because the shell-expression builder
concatenates the converter output into the command verbatim. -/
theorem converter_output_plain_but_unescaped (s : String) :
    isSafeString (.vStr s) = false ∧
    (∀ s2 entries, buildShellExpression [s, s2] [.vObj entries] =
      (objectToShellSafeFlags entries).map fun flags => s ++ flags ++ s2) ∧
    (∀ s2 arr, buildShellExpression [s, s2] [.vArr arr] =
      .ok (s ++ arrayToShellArgs arr ++ s2)) := by
  refine ⟨rfl, ?_, ?_⟩
  · intro s2 entries
    show (do
      let safeValue ← valueToShellString (.vObj entries)
        (getInterpolationContext s s2)
      let r ← buildShellExpression [s2] []
      pure (s ++ safeValue ++ r)) =
      (objectToShellSafeFlags entries).map fun flags => s ++ flags ++ s2
    have hv : valueToShellString (.vObj entries)
        (getInterpolationContext s s2) =
        objectToShellSafeFlags (objectEntries (.vObj entries)) := rfl
    rw [hv]
    show (objectToShellSafeFlags entries).bind (fun safeValue =>
      pure (s ++ safeValue ++ (s2 ++ ""))) = _
    cases h : objectToShellSafeFlags entries with
    | error e => rfl
    | ok flags =>
      show Except.ok (s ++ flags ++ (s2 ++ "")) = Except.ok (s ++ flags ++ s2)
      rw [String.append_empty]
  · intro s2 arr
    show (do
      let safeValue ← valueToShellString (.vArr arr)
        (getInterpolationContext s s2)
      let r ← buildShellExpression [s2] []
      pure (s ++ safeValue ++ r)) =
      Except.ok (s ++ arrayToShellArgs arr ++ s2)
    show Except.ok (s ++ arrayToShellArgs arr ++ (s2 ++ "")) = _
    rw [String.append_empty]

theorem startChar_not_dash {c : Char} (h : flagNameStartChar c = true) :
    (c == '-') = false := by
  by_cases hc : c = '-'
  · subst hc
    exact absurd h (by decide)
  · exact beq_eq_false_iff_ne.mpr hc

theorem formatFlagName_error_of_invalid (key : String)
    (h : specValidRemainder (key.data.dropWhile (· == '-')) = false) :
    formatFlagName key = .error (flagNameErrorMessage key) := by
  unfold formatFlagName
  cases hrest : key.data.dropWhile (· == '-') with
  | nil => simp only [hrest]
  | cons c cs =>
    rw [hrest] at h
    simp only [specValidRemainder] at h
    simp only [hrest, h, Bool.false_eq_true, if_false]

theorem dash_run_split (n : Nat) (c : Char) (cs : List Char)
    (hc : (c == '-') = false) :
    (List.replicate n '-' ++ c :: cs).takeWhile (· == '-') =
      List.replicate n '-' ∧
    (List.replicate n '-' ++ c :: cs).dropWhile (· == '-') = c :: cs := by
  induction n with
  | zero =>
    simp only [List.replicate, List.nil_append]
    rw [List.takeWhile_cons, List.dropWhile_cons]
    simp [hc]
  | succ n ih =>
    simp only [List.replicate_succ, List.cons_append]
    rw [List.takeWhile_cons, List.dropWhile_cons]
    simp [ih]

theorem formatFlagName_ok_of_valid (n : Nat) (c : Char) (cs : List Char)
    (hnd : (c == '-') = false)
    (hvalid : (flagNameStartChar c && cs.all flagNameChar) = true) :
    formatFlagName (String.mk (List.replicate n '-' ++ c :: cs)) =
      .ok ((if (List.replicate n '-' : List Char).isEmpty then "--"
            else String.mk (List.replicate n '-')) ++ String.mk (c :: cs)) := by
  obtain ⟨htake, hdrop⟩ := dash_run_split n c cs hnd
  unfold formatFlagName
  simp only [show (String.mk (List.replicate n '-' ++ c :: cs)).data =
    List.replicate n '-' ++ c :: cs from rfl, htake, hdrop]
  rw [if_pos hvalid]

/-- Claim C4: flag keys are normalized by stripping the leading dash run and
validating the remainder against `[A-Za-z_][A-Za-z0-9_-]*`; an invalid
remainder (including an empty one or an all-dash key) makes the key fail
with the descriptive error naming it and aborts the whole conversion with
no output; a valid dash-less key gains exactly `--`, and a valid dashed key
keeps exactly its original dashes. -/
theorem flag_key_validation (key : String) :
    (specValidRemainder (key.data.dropWhile (· == '-')) = false →
      formatFlagName key = .error (flagNameErrorMessage key)) ∧
    (specValidRemainder key.data = true →
      formatFlagName key = .ok ("--" ++ key)) ∧
    (∀ n : Nat, 0 < n → specValidRemainder key.data = true →
      formatFlagName (String.mk (List.replicate n '-') ++ key) =
        .ok (String.mk (List.replicate n '-') ++ key)) ∧
    (∀ entries value, (key, value) ∈ entries →
      shouldIncludeFlag value = true →
      specValidRemainder (key.data.dropWhile (· == '-')) = false →
      exceptIsOk (objectToShellSafeFlags entries) = false) := by
  refine ⟨formatFlagName_error_of_invalid key, ?_, ?_, ?_⟩
  · intro h
    cases hk : key.data with
    | nil => rw [hk] at h; exact absurd h (by decide)
    | cons c cs =>
      rw [hk] at h
      simp only [specValidRemainder] at h
      have hstart : flagNameStartChar c = true := (Bool.and_eq_true .. ▸ h).1
      have hnd : (c == '-') = false := startChar_not_dash hstart
      rw [show key = String.mk (c :: cs) from by rw [← hk]]
      exact formatFlagName_ok_of_valid 0 c cs hnd h
  · intro n hn h
    cases hk : key.data with
    | nil => rw [hk] at h; exact absurd h (by decide)
    | cons c cs =>
      rw [hk] at h
      simp only [specValidRemainder] at h
      have hstart : flagNameStartChar c = true := (Bool.and_eq_true .. ▸ h).1
      have hnd : (c == '-') = false := startChar_not_dash hstart
      have hne : (List.replicate n '-' : List Char).isEmpty = false := by
        cases n with
        | zero => exact absurd hn (by decide)
        | succ m => rfl
      rw [show key = String.mk (c :: cs) from by rw [← hk]]
      rw [show (String.mk (List.replicate n '-') ++ String.mk (c :: cs) :
        String) = String.mk (List.replicate n '-' ++ c :: cs) from rfl]
      rw [formatFlagName_ok_of_valid n c cs hnd h]
      rw [if_neg (fun hh => Bool.false_ne_true (hne ▸ hh))]
      rfl
  · intro entries value hmem hincl hinvalid
    have herr : formatShellSafeFlag key value =
        .error (flagNameErrorMessage key) := by
      unfold formatShellSafeFlag
      rw [formatFlagName_error_of_invalid key hinvalid]
      rfl
    have hkept : (key, value) ∈ entries.filter fun kv =>
        shouldIncludeFlag kv.2 :=
      List.mem_filter.mpr ⟨hmem, hincl⟩
    have hmap : ∀ (l : List (String × JSValue)), (key, value) ∈ l →
        ∃ e, mapExcept (fun kv => formatShellSafeFlag kv.1 kv.2) l =
          .error e := by
      intro l
      induction l with
      | nil => intro hmem2; cases hmem2
      | cons x xs ih =>
        intro hmem2
        rcases List.mem_cons.mp hmem2 with rfl | hmem3
        · refine ⟨flagNameErrorMessage key, ?_⟩
          unfold mapExcept
          rw [herr]
          rfl
        · cases hfx : formatShellSafeFlag x.1 x.2 with
          | error e3 =>
            refine ⟨e3, ?_⟩
            unfold mapExcept
            rw [hfx]
            rfl
          | ok y =>
            obtain ⟨e2, h2⟩ := ih hmem3
            refine ⟨e2, ?_⟩
            unfold mapExcept
            rw [hfx]
            show (mapExcept (fun kv => formatShellSafeFlag kv.1 kv.2) xs).bind
              (fun bs => pure (y :: bs)) = Except.error e2
            rw [h2]
            rfl
    obtain ⟨e, he⟩ := hmap _ hkept
    show exceptIsOk ((mapExcept (fun kv => formatShellSafeFlag kv.1 kv.2)
      (entries.filter fun kv => shouldIncludeFlag kv.2)).bind fun toks =>
        pure (String.intercalate " " toks)) = false
    rw [he]
    rfl

/-- Witness for claim C4 at concrete keys: the short flag `-v` keeps its
single dash, and the dangerous key `$(evil)` aborts the conversion. -/
theorem flag_key_validation_witness :
    formatFlagName "-v" = .ok "-v" ∧
    exceptIsOk (objectToShellSafeFlags [("$(evil)", JSValue.vStr "x")]) =
      false := by
  constructor
  · exact (flag_key_validation "v").2.2.1 1 (by decide) (by decide)
  · exact (flag_key_validation "$(evil)").2.2.2
      [("$(evil)", JSValue.vStr "x")] (.vStr "x") (by simp) (by decide)
      (by decide)

theorem jsTrim_eq_empty_of_all_ws (command : String)
    (h : command.data.all isJSWhitespace = true) : jsTrim command = "" := by
  unfold jsTrim
  have h1 : command.data.dropWhile isJSWhitespace = [] :=
    List.dropWhile_eq_nil_iff.mpr fun x hx => List.all_eq_true.mp h x hx
  rw [h1]
  rfl

/-- Claim C6 counterexample: with `throw: false`, a whitespace-only command
is not thrown --- `runCommand` returns the empty-command error inside a
failure-shaped `ProcessResult` instead. -/
theorem empty_command_safe_mode_returns_result :
    runCommandGate "   " (some false) =
      .result { ok := some false, error := some emptyCommandError,
                output := some "", debug := some "" } := rfl

/-- Claim C6 amended: a command that is empty or all-whitespace after
trimming is rejected with the dedicated empty-command error before any
spawn attempt, but the rejection follows the `throw` option exactly like a
runtime failure: it throws unless `throw` is `false`, in which case a
failure-shaped `ProcessResult` is returned. -/
theorem empty_command_follows_throw_config (command : String)
    (throwOpt : Option Bool) (h : command.data.all isJSWhitespace = true) :
    runCommandGate command throwOpt =
      (if throwOpt = some false then
        .result { ok := some false, error := some emptyCommandError,
                  output := some "", debug := some "" }
      else .thrown emptyCommandError) := by
  show (if jsTrim command = "" then
      if throwOpt ≠ some false then RunOutcome.thrown emptyCommandError
      else .result { ok := some false, error := some emptyCommandError,
                     output := some "", debug := some "" }
    else .proceed (jsTrim command)) = _
  rw [jsTrim_eq_empty_of_all_ws command h, if_pos rfl]
  by_cases ht : throwOpt = some false
  · rw [if_neg (fun hne => hne ht), if_pos ht]
  · rw [if_pos ht, if_neg ht]

/-- Witness for claim C6 at a concrete whitespace command and
`throw: false`. -/
theorem empty_command_follows_throw_config_witness :
    runCommandGate " " (some false) =
      .result { ok := some false, error := some emptyCommandError,
                output := some "", debug := some "" } := by
  have h := empty_command_follows_throw_config " " (some false) (by decide)
  simpa using h

/-- Claim C7 (code bug): in safe mode the asynchronous launch-failure path
resolves a `ProcessResult` built from positional constructor arguments, so
every field of the delivered result is `undefined` --- `ok` is not `false`
and `error` is not populated; the synchronous path delivers the
failure-shaped result the claim describes. -/
theorem async_spawn_error_safe_mode_undefined_fields :
    asyncSettle (.errorEvent
        "spawn this-command-absolutely-does-not-exist ENOENT"
        (.strCode "ENOENT")) "" "" (some false) =
      .resolve { ok := none, error := none, output := none, debug := none } ∧
    executeSyncCommand (.spawnErr
        "spawnSync this-command-absolutely-does-not-exist ENOENT"
        (.strCode "ENOENT") "" "") (some false) =
      .resolve { ok := some false,
                 error := some ⟨"spawnSync this-command-absolutely-does-not-exist ENOENT",
                   .strCode "ENOENT", "", ""⟩,
                 output := some "", debug := some "" } :=
  ⟨rfl, rfl⟩

/-- Claim C8 counterexample: for an OS-level launch failure the error code
delivered is the platform code `"ENOENT"`, not exit code 127, and the
message is the platform message, not a command-not-found normalization. -/
theorem spawn_error_code_is_platform_code :
    asyncSettle (.errorEvent
        "spawn this-command-absolutely-does-not-exist ENOENT"
        (.strCode "ENOENT")) "" "" none =
      .reject ⟨"spawn this-command-absolutely-does-not-exist ENOENT",
        .strCode "ENOENT", "", ""⟩ ∧
    ErrCode.strCode "ENOENT" ≠ ErrCode.exitCode 127 :=
  ⟨rfl, by decide⟩

/-- Claim C8 amended: an OS launch failure is passed through as a
`ProcessError` carrying the platform's own message and error code, with the
same throw/no-throw branching as nonzero exits (modulo the asynchronous
no-throw constructor bug); exit code 127 arises only when a shell itself
reports command-not-found through the nonzero-exit path. -/
theorem spawn_error_passthrough (message : String) (code : ErrCode)
    (output debug : String) :
    asyncSettle (.errorEvent message code) output debug none =
      .reject ⟨message, code, output, debug⟩ ∧
    executeSyncCommand (.spawnErr message code output debug) none =
      .reject ⟨message, code, output, debug⟩ ∧
    executeSyncCommand (.spawnErr message code output debug) (some false) =
      .resolve { ok := some false,
                 error := some ⟨message, code, output, debug⟩,
                 output := some output, debug := some debug } ∧
    asyncSettle (.closeEvent 127) ""
        "/bin/sh: nonexistent-cmd: command not found\n" none =
      .reject ⟨"Command failed with exit code 127: /bin/sh: nonexistent-cmd: command not found",
        .exitCode 127, "",
        "/bin/sh: nonexistent-cmd: command not found\n"⟩ :=
  ⟨rfl, rfl, rfl, by decide⟩

/-- Claim C9 (code bug): the three externally-visible streams do not exist
upon construction --- with `immediate: false` all three getters return null
until `start()` is called, and the streams only come into being when
`start()` assigns them (with the default `immediate: true` the constructor
itself calls `start()`). -/
theorem process_streams_null_until_started :
    (Process.construct "echo hi" { immediate := some false }).output = none ∧
    (Process.construct "echo hi" { immediate := some false }).debug = none ∧
    (Process.construct "echo hi" { immediate := some false }).input = none ∧
    (Process.construct "echo hi" { immediate := some false }).started = false ∧
    (Process.construct "echo hi" {}).output = some .readableStub :=
  ⟨rfl, rfl, rfl, rfl, rfl⟩

theorem parseStep_parts_nonempty (st : ParseState) (c : Char)
    (h : ∀ t ∈ st.parts, t ≠ "") :
    ∀ t ∈ (parseStep st c).parts, t ≠ "" := by
  intro t ht
  unfold parseStep at ht
  split_ifs at ht with h1 h2 h3 h4
  · exact h t ht
  · exact h t ht
  · rcases List.mem_append.mp ht with h5 | h5
    · exact h t h5
    · rw [List.mem_singleton.mp h5]
      exact h4
  · exact h t ht
  · exact h t ht

theorem parse_foldl_parts_nonempty (l : List Char) (st : ParseState)
    (h : ∀ t ∈ st.parts, t ≠ "") :
    ∀ t ∈ (l.foldl parseStep st).parts, t ≠ "" := by
  induction l generalizing st with
  | nil => exact h
  | cons c rest ih =>
    exact ih (parseStep st c) (parseStep_parts_nonempty st c h)

/-- Claim C10: the direct-mode tokenizer never emits an empty token --- every
token of the program/argument vector is nonempty, so a quoted empty string
standing alone between whitespace contributes no token at all. -/
theorem parseCommand_tokens_nonempty (command t : String)
    (ht : t ∈ parseCommand command) : t ≠ "" := by
  simp only [parseCommand] at ht
  have hparts : ∀ u ∈ (command.data.foldl parseStep
      { parts := [], current := "", inQuotes := false,
        quoteChar := none }).parts, u ≠ "" := by
    apply parse_foldl_parts_nonempty
    intro u hu
    cases hu
  by_cases hc : (command.data.foldl parseStep
      { parts := [], current := "", inQuotes := false,
        quoteChar := none }).current ≠ ""
  · rw [if_pos hc] at ht
    rcases List.mem_append.mp ht with h5 | h5
    · exact hparts t h5
    · rw [List.mem_singleton.mp h5]
      exact hc
  · rw [if_neg hc] at ht
    exact hparts t ht

/-- Witness for claim C10: in `a "" b` the quoted empty string contributes
no token, and the emitted token `a` is nonempty. -/
theorem parseCommand_tokens_nonempty_witness :
    ("a" ∈ parseCommand "a \"\" b") ∧ parseCommand "a \"\" b" = ["a", "b"] ∧
    "a" ≠ "" := by
  refine ⟨by decide, by decide, ?_⟩
  exact parseCommand_tokens_nonempty "a \"\" b" "a" (by decide)

end ShCmdTag
